import Mathlib

/-!
Verification of the Lending and Reservation Scheduling Engine of the
Derin2001/Library repository.

The TypeScript source is shallowly embedded.  Conventions:

* All timestamps and calendar dates are modelled as `Int`, measured in whole
  days (one unit = one day, `new Date(0)` = `0`).  `date-fns` helpers map to
  plain arithmetic: `addDays t n = t + n`, `subDays t n = t - n`,
  `isBefore a b = a < b`, `isAfter a b = b < a`, and `differenceInDays a b`
  on the midnight-aligned dates used by the reservation logic is `a - b`.
* JavaScript array `sort` with an ascending comparator is modelled by
  `List.insertionSort` (modern engines' sort is stable, as is insertion
  sort; on equal keys both keep the original order).
* Fallible JavaScript code (a thrown exception) is modelled with `Except`
  or with an explicit outcome constructor.
* Counts that the code computes with JavaScript numbers are modelled with
  `Int` wherever the code can produce negative values.
-/

namespace Library

/-- Transaction kinds, from `types.ts` (`TransactionType`). -/
inductive TransactionType where
  | checkOut
  | checkIn
  deriving Repr, DecidableEq

/-- A ledger event, from `types.ts` (`Transaction`).  `date` is the event
timestamp, `dueDate`/`renewalCount` are the optional fields of the source. -/
structure Transaction where
  id : String
  bookId : String
  bookTitle : String
  memberId : String
  kind : TransactionType
  date : Int
  dueDate : Option Int
  renewalCount : Option Int
  deriving Repr, DecidableEq

/-- Reservation status, from `types.ts` (`Reservation.status`). -/
inductive ResStatus where
  | active
  | fulfilled
  | cancelled
  | expired
  | cancelledOverdue
  | cancelledMember
  deriving Repr, DecidableEq

/-- A reservation, from `types.ts` (`Reservation`). -/
structure Reservation where
  id : String
  bookId : String
  memberId : String
  reservationDate : Int
  pickupDate : Int
  status : ResStatus
  deriving Repr, DecidableEq

/-- A title, from `types.ts` (`Book`); the attributes that scheduling never
reads are kept as plain strings. -/
structure Book where
  id : String
  title : String
  author : String
  totalCopies : Int
  deriving Repr, DecidableEq

/-- A member, from `types.ts` (`Member`). -/
structure Member where
  id : String
  name : String
  deriving Repr, DecidableEq

/-- Global settings, from `types.ts` (`Settings`). -/
structure Settings where
  loanPeriodDays : Int
  maxRenewals : Int
  deriving Repr, DecidableEq

/-- Book status, from `types.ts` (`BookStatus`). -/
inductive BookStatus where
  | onShelf
  | checkedOut
  | reserved
  | unavailable
  deriving Repr, DecidableEq

/-! ## Ledger reconstruction (claim C1)

From `App.tsx` (`overdueBooks`, src/unnamed/part_004 lines 147-152): the
events of one (member, book) pair are sorted by timestamp and walked with
`t.type === CheckOut ? active.push(t) : active.shift()`.  JavaScript
`shift()` removes the first element and is a silent no-op on an empty
array, hence the `List.tail` below. -/

/-- One step of the ledger walk: a checkout appends to the open list, a
checkin removes the earliest-added entry (`Array.prototype.shift`, a no-op
when the list is empty). -/
def ledgerStep (active : List Transaction) (t : Transaction) : List Transaction :=
  match t.kind with
  | .checkOut => active ++ [t]
  | .checkIn => active.tail

/-- The ledger walk over one (member, book) pair's timestamp-ordered event
group: the remaining entries are the pair's active loans. -/
def activeLoans (evs : List Transaction) : List Transaction :=
  evs.foldl ledgerStep []

/-- The events of `evs` that are checkouts, in order. -/
def checkOutsOf (evs : List Transaction) : List Transaction :=
  evs.filter (fun t => t.kind == .checkOut)

/-- Number of CheckOut events. -/
def countOuts (evs : List Transaction) : Nat :=
  (checkOutsOf evs).length

/-- Number of CheckIn events. -/
def countIns (evs : List Transaction) : Nat :=
  (evs.filter (fun t => t.kind == .checkIn)).length

/-- A pair's event interleaving is well formed when no CheckIn arrives
while no checkout is open: every prefix has at least as many CheckOuts as
CheckIns. -/
def WellFormed (evs : List Transaction) : Prop :=
  ∀ p : List Transaction, p <+: evs → countIns p ≤ countOuts p

instance : DecidablePred WellFormed := fun evs =>
  decidable_of_iff (∀ p ∈ evs.inits, countIns p ≤ countOuts p)
    (by simp [WellFormed, List.mem_inits])

/-- Sorting a pair's events by timestamp, as the source's
`sort((a,b) => parseISO(a.date).getTime() - parseISO(b.date).getTime())`. -/
def sortByDate (evs : List Transaction) : List Transaction :=
  evs.insertionSort (fun a b => a.date ≤ b.date)

theorem countOuts_append (l₁ l₂ : List Transaction) :
    countOuts (l₁ ++ l₂) = countOuts l₁ + countOuts l₂ := by
  simp [countOuts, checkOutsOf, List.filter_append]

theorem countIns_append (l₁ l₂ : List Transaction) :
    countIns (l₁ ++ l₂) = countIns l₁ + countIns l₂ := by
  simp [countIns, List.filter_append]

theorem WellFormed.of_append_right {l₁ l₂ : List Transaction}
    (h : WellFormed (l₁ ++ l₂)) : WellFormed l₁ :=
  fun p hp => h p (hp.trans (List.prefix_append l₁ l₂))

/-- Under well-formedness the counts balance on every prefix, in particular
on the whole list. -/
theorem WellFormed.count_le {evs : List Transaction} (h : WellFormed evs) :
    countIns evs ≤ countOuts evs :=
  h evs (List.prefix_refl evs)

theorem activeLoans_append_single (evs : List Transaction) (t : Transaction) :
    activeLoans (evs ++ [t]) = ledgerStep (activeLoans evs) t := by
  simp [activeLoans, List.foldl_append]

/-- Core ledger lemma: on a well-formed interleaving the walk's surviving
entries are exactly the checkouts with the first `countIns` of them
removed — the k-th CheckIn closes the k-th-oldest CheckOut (FIFO). -/
theorem activeLoans_eq_drop :
    ∀ evs : List Transaction, WellFormed evs →
      activeLoans evs = (checkOutsOf evs).drop (countIns evs) := by
  intro evs
  induction evs using List.reverseRecOn with
  | nil => intro _; rfl
  | append_singleton xs x ih =>
    intro h
    have hxs : WellFormed xs := h.of_append_right
    have hcount : countIns xs ≤ countOuts xs := hxs.count_le
    rw [activeLoans_append_single, ih hxs]
    cases hk : x.kind with
    | checkOut =>
      have hx : checkOutsOf (xs ++ [x]) = checkOutsOf xs ++ [x] := by
        simp [checkOutsOf, List.filter_append, hk]
      have hi : countIns (xs ++ [x]) = countIns xs := by
        simp [countIns, List.filter_append, hk]
      rw [hx, hi, ledgerStep, hk,
        List.drop_append_of_le_length (by simpa [countOuts] using hcount)]
    | checkIn =>
      have hx : checkOutsOf (xs ++ [x]) = checkOutsOf xs := by
        simp [checkOutsOf, List.filter_append, hk]
      have hi : countIns (xs ++ [x]) = countIns xs + 1 := by
        simp [countIns, List.filter_append, hk]
      rw [hx, hi, ledgerStep, hk, List.tail_drop]

/-- C1, corrected.  For a well-formed interleaving of one (member, title)
pair's events (no CheckIn arrives while no checkout is open), the ledger
walk leaves exactly the checkouts with the `countIns` oldest removed —
FIFO closing order — and the active-loan count is
`checkouts - checkins = max 0 (checkouts - checkins)`.  Without the
well-formedness hypothesis the count claim is false
(see `c1_counterexample`): an unmatched CheckIn is a silent no-op. -/
theorem c1_ledger_fifo (evs : List Transaction) (h : WellFormed evs) :
    activeLoans evs = (checkOutsOf evs).drop (countIns evs) ∧
    ((activeLoans evs).length : Int) =
      max 0 ((countOuts evs : Int) - countIns evs) := by
  refine ⟨activeLoans_eq_drop evs h, ?_⟩
  have hcount : countIns evs ≤ countOuts evs := h.count_le
  rw [activeLoans_eq_drop evs h, List.length_drop]
  unfold countOuts at *
  omega

/-- A concrete FIFO interleaving: CheckOut, CheckOut, CheckIn, CheckOut. -/
def c1DemoEvents : List Transaction :=
  [⟨"t1", "b1", "B", "m1", .checkOut, 0, none, none⟩,
   ⟨"t2", "b1", "B", "m1", .checkOut, 1, none, none⟩,
   ⟨"t3", "b1", "B", "m1", .checkIn, 2, none, none⟩,
   ⟨"t4", "b1", "B", "m1", .checkOut, 3, none, none⟩]

theorem c1_ledger_fifo_witness :
    WellFormed c1DemoEvents ∧
      ((activeLoans c1DemoEvents).length : Int) =
        max 0 ((countOuts c1DemoEvents : Int) - countIns c1DemoEvents) :=
  ⟨by decide, (c1_ledger_fifo c1DemoEvents (by decide)).2⟩

/-- An interleaving starting with an unmatched CheckIn. -/
def c1BadEvents : List Transaction :=
  [⟨"t1", "b1", "B", "m1", .checkIn, 0, none, none⟩,
   ⟨"t2", "b1", "B", "m1", .checkOut, 1, none, none⟩]

/-- C1 counterexample: for the interleaving CheckIn-then-CheckOut the walk
keeps 1 active loan (the CheckIn's `shift()` was a no-op on the empty
list), while the claim's formula `max 0 (checkouts - checkins)` gives 0. -/
theorem c1_counterexample :
    ((activeLoans c1BadEvents).length : Int) ≠
      max 0 ((countOuts c1BadEvents : Int) - countIns c1BadEvents) := by
  decide

/-! ## Availability calculator (claim C2)

From `App.tsx` (`booksWithAvailability`, src/unnamed/part_004 lines
163-187 and src/unnamed/part_005 lines 123-147): per-book checkout and
checkin tallies are built into record maps by one pass over the
transactions, active reservations are grouped by book, then each book is
mapped to its on-shelf count and status.  JavaScript `Record<string, T>`
objects are modelled as association lists in insertion order. -/

/-- `checkoutCounts[k] = (checkoutCounts[k] || 0) + 1` on an association
list. -/
def bumpCount (m : List (String × Nat)) (k : String) : List (String × Nat) :=
  match m with
  | [] => [(k, 1)]
  | (k', v) :: rest =>
    if k' == k then (k', v + 1) :: rest else (k', v) :: bumpCount rest k

/-- `m[k] || 0`. -/
def lookupCount (m : List (String × Nat)) (k : String) : Nat :=
  match m.find? (fun p => p.fst == k) with
  | some p => p.snd
  | none => 0

/-- The `transactions.forEach` pass building `checkoutCounts` and
`checkinCounts`. -/
def countMaps (transactions : List Transaction) :
    List (String × Nat) × List (String × Nat) :=
  transactions.foldl
    (fun maps t =>
      match t.kind with
      | .checkOut => (bumpCount maps.fst t.bookId, maps.snd)
      | .checkIn => (maps.fst, bumpCount maps.snd t.bookId))
    ([], [])

/-- `acc[r.bookId].push(r)` (creating the entry when absent) on an
association list. -/
def pushRes (m : List (String × List Reservation)) (k : String)
    (r : Reservation) : List (String × List Reservation) :=
  match m with
  | [] => [(k, [r])]
  | (k', v) :: rest =>
    if k' == k then (k', v ++ [r]) :: rest else (k', v) :: pushRes rest k r

/-- `m[k] || []`. -/
def lookupRes (m : List (String × List Reservation)) (k : String) :
    List Reservation :=
  match m.find? (fun p => p.fst == k) with
  | some p => p.snd
  | none => []

/-- The `reservations.reduce` pass building `activeReservationsByBook`. -/
def resByBook (reservations : List Reservation) :
    List (String × List Reservation) :=
  reservations.foldl
    (fun acc r => if r.status == .active then pushRes acc r.bookId r else acc)
    []

/-- The output rows of the availability calculator (the `...book` spread
plus `availableCopies` and `status`). -/
structure BookWithAvailability where
  book : Book
  availableCopies : Int
  status : BookStatus
  deriving Repr, DecidableEq

/-- The per-book body of the `books.map` in `booksWithAvailability`. -/
def bookAvailability (outMap inMap : List (String × Nat))
    (byBook : List (String × List Reservation)) (book : Book) :
    BookWithAvailability :=
  let checkedOut : Int :=
    max 0 ((lookupCount outMap book.id : Int) - (lookupCount inMap book.id : Int))
  let onShelfCopies : Int := book.totalCopies - checkedOut
  let activeResCount : Int := (lookupRes byBook book.id).length
  let status :=
    if onShelfCopies ≤ 0 then BookStatus.unavailable
    else if onShelfCopies ≤ activeResCount then BookStatus.reserved
    else BookStatus.onShelf
  ⟨book, onShelfCopies, status⟩

/-- The availability calculator (`booksWithAvailability`). -/
def booksWithAvailability (books : List Book) (transactions : List Transaction)
    (reservations : List Reservation) : List BookWithAvailability :=
  let outMap := (countMaps transactions).fst
  let inMap := (countMaps transactions).snd
  let byBook := resByBook reservations
  books.map (bookAvailability outMap inMap byBook)

/-- Specification-level count of a title's CheckOut events. -/
def checkoutCountOf (transactions : List Transaction) (bookId : String) : Nat :=
  (transactions.filter (fun t => t.bookId == bookId && t.kind == .checkOut)).length

/-- Specification-level count of a title's CheckIn events. -/
def checkinCountOf (transactions : List Transaction) (bookId : String) : Nat :=
  (transactions.filter (fun t => t.bookId == bookId && t.kind == .checkIn)).length

/-- Specification-level count of a title's Active reservations. -/
def activeResCountOf (reservations : List Reservation) (bookId : String) : Nat :=
  (reservations.filter (fun r => r.status == .active && r.bookId == bookId)).length

theorem lookupCount_nil (k : String) : lookupCount [] k = 0 := rfl

theorem lookupCount_cons (k' : String) (v : Nat) (rest : List (String × Nat))
    (k : String) :
    lookupCount ((k', v) :: rest) k = if k' = k then v else lookupCount rest k := by
  by_cases hk : k' = k
  · simp [lookupCount, List.find?_cons_of_pos, hk]
  · simp only [lookupCount, hk, if_false]
    rw [List.find?_cons_of_neg]
    simp [hk]

theorem lookupCount_bump_same (m : List (String × Nat)) (k : String) :
    lookupCount (bumpCount m k) k = lookupCount m k + 1 := by
  induction m with
  | nil => simp [bumpCount, lookupCount_cons, lookupCount_nil]
  | cons p rest ih =>
    obtain ⟨k', v⟩ := p
    by_cases hk : k' = k
    · simp [bumpCount, lookupCount_cons, hk]
    · simp [bumpCount, lookupCount_cons, hk, ih]

theorem lookupCount_bump_other (m : List (String × Nat)) (k k' : String)
    (h : k ≠ k') : lookupCount (bumpCount m k') k = lookupCount m k := by
  induction m with
  | nil => simp [bumpCount, lookupCount_cons, lookupCount_nil, Ne.symm h]
  | cons p rest ih =>
    obtain ⟨k₀, v⟩ := p
    by_cases hk : k₀ = k'
    · subst hk
      simp [bumpCount, lookupCount_cons, Ne.symm h]
    · simp [bumpCount, lookupCount_cons, hk, ih]

theorem countMaps_append_single (txns : List Transaction) (t : Transaction) :
    countMaps (txns ++ [t]) =
      match t.kind with
      | .checkOut => (bumpCount (countMaps txns).fst t.bookId, (countMaps txns).snd)
      | .checkIn => ((countMaps txns).fst, bumpCount (countMaps txns).snd t.bookId) := by
  simp only [countMaps, List.foldl_append, List.foldl_cons, List.foldl_nil]

theorem countMaps_fst_lookup (txns : List Transaction) (b : String) :
    lookupCount (countMaps txns).fst b = checkoutCountOf txns b := by
  induction txns using List.reverseRecOn with
  | nil => simp [countMaps, lookupCount, checkoutCountOf, List.find?]
  | append_singleton xs x ih =>
    rw [countMaps_append_single]
    cases hk : x.kind with
    | checkOut =>
      by_cases hb : x.bookId = b
      · simp [hb, lookupCount_bump_same, ih, checkoutCountOf,
          List.filter_append, hk]
      · simp [lookupCount_bump_other _ _ _ (Ne.symm hb), ih, checkoutCountOf,
          List.filter_append, hk, hb]
    | checkIn =>
      simp [ih, checkoutCountOf, List.filter_append, hk]

theorem countMaps_snd_lookup (txns : List Transaction) (b : String) :
    lookupCount (countMaps txns).snd b = checkinCountOf txns b := by
  induction txns using List.reverseRecOn with
  | nil => simp [countMaps, lookupCount, checkinCountOf, List.find?]
  | append_singleton xs x ih =>
    rw [countMaps_append_single]
    cases hk : x.kind with
    | checkOut =>
      simp [ih, checkinCountOf, List.filter_append, hk]
    | checkIn =>
      by_cases hb : x.bookId = b
      · simp [hb, lookupCount_bump_same, ih, checkinCountOf,
          List.filter_append, hk]
      · simp [lookupCount_bump_other _ _ _ (Ne.symm hb), ih, checkinCountOf,
          List.filter_append, hk, hb]

theorem lookupRes_nil (k : String) : lookupRes [] k = [] := rfl

theorem lookupRes_cons (k' : String) (v : List Reservation)
    (rest : List (String × List Reservation)) (k : String) :
    lookupRes ((k', v) :: rest) k = if k' = k then v else lookupRes rest k := by
  by_cases hk : k' = k
  · simp [lookupRes, List.find?_cons_of_pos, hk]
  · simp only [lookupRes, hk, if_false]
    rw [List.find?_cons_of_neg]
    simp [hk]

theorem lookupRes_push_same (m : List (String × List Reservation)) (k : String)
    (r : Reservation) :
    lookupRes (pushRes m k r) k = lookupRes m k ++ [r] := by
  induction m with
  | nil => simp [pushRes, lookupRes_cons, lookupRes_nil]
  | cons p rest ih =>
    obtain ⟨k', v⟩ := p
    by_cases hk : k' = k
    · simp [pushRes, lookupRes_cons, hk]
    · simp [pushRes, lookupRes_cons, hk, ih]

theorem lookupRes_push_other (m : List (String × List Reservation))
    (k k' : String) (r : Reservation) (h : k ≠ k') :
    lookupRes (pushRes m k' r) k = lookupRes m k := by
  induction m with
  | nil => simp [pushRes, lookupRes_cons, lookupRes_nil, Ne.symm h]
  | cons p rest ih =>
    obtain ⟨k₀, v⟩ := p
    by_cases hk : k₀ = k'
    · subst hk
      simp [pushRes, lookupRes_cons, Ne.symm h]
    · simp [pushRes, lookupRes_cons, hk, ih]

theorem resByBook_lookup (reservations : List Reservation) (b : String) :
    (lookupRes (resByBook reservations) b).length = activeResCountOf reservations b := by
  induction reservations using List.reverseRecOn with
  | nil => simp [resByBook, lookupRes, activeResCountOf, List.find?]
  | append_singleton xs x ih =>
    have hstep : resByBook (xs ++ [x]) =
        if x.status == .active then pushRes (resByBook xs) x.bookId x
        else resByBook xs := by
      simp only [resByBook, List.foldl_append, List.foldl_cons, List.foldl_nil]
    rw [hstep]
    by_cases hs : x.status = .active
    · by_cases hb : x.bookId = b
      · simp [hs, hb, lookupRes_push_same, ih, activeResCountOf,
          List.filter_append]
      · simp [hs, lookupRes_push_other _ _ _ _ (Ne.symm hb), ih,
          activeResCountOf, List.filter_append, hb]
    · simp [hs, ih, activeResCountOf, List.filter_append]

/-- C2, confirmed.  Every row of the availability calculator carries
`onShelf = totalCopies - max 0 (checkoutCount - checkinCount)`, and its
status is `Unavailable` iff `onShelf ≤ 0`, otherwise `Reserved` iff
`onShelf ≤` the count of that title's Active reservations, otherwise
`OnShelf`. -/
theorem c2_availability (books : List Book) (transactions : List Transaction)
    (reservations : List Reservation) :
    ∀ e ∈ booksWithAvailability books transactions reservations,
      e.availableCopies = e.book.totalCopies -
        max 0 ((checkoutCountOf transactions e.book.id : Int) -
          (checkinCountOf transactions e.book.id : Int)) ∧
      (e.status = .unavailable ↔ e.availableCopies ≤ 0) ∧
      (e.status = .reserved ↔ 0 < e.availableCopies ∧
        e.availableCopies ≤ (activeResCountOf reservations e.book.id : Int)) ∧
      (e.status = .onShelf ↔
        (activeResCountOf reservations e.book.id : Int) < e.availableCopies ∧
        0 < e.availableCopies) := by
  intro e he
  rw [booksWithAvailability, List.mem_map] at he
  obtain ⟨b, _hb, rfl⟩ := he
  unfold bookAvailability
  rw [countMaps_fst_lookup, countMaps_snd_lookup, resByBook_lookup]
  dsimp only
  refine ⟨rfl, ?_, ?_, ?_⟩ <;> (split_ifs with h1 h2 <;> simp <;> omega)

/-- A concrete availability instance: one copy, one open checkout. -/
def c2DemoBook : Book := ⟨"b1", "B", "A", 1⟩

theorem c2_availability_witness :
    (⟨c2DemoBook, 0, .unavailable⟩ : BookWithAvailability) ∈
      booksWithAvailability [c2DemoBook]
        [⟨"t1", "b1", "B", "m1", .checkOut, 0, some 15, some 0⟩] [] ∧
    ((⟨c2DemoBook, 0, .unavailable⟩ : BookWithAvailability).status =
        .unavailable ↔
      (⟨c2DemoBook, 0, .unavailable⟩ : BookWithAvailability).availableCopies ≤ 0) :=
  ⟨by decide,
   (c2_availability [c2DemoBook]
      [⟨"t1", "b1", "B", "m1", .checkOut, 0, some 15, some 0⟩] []
      ⟨c2DemoBook, 0, .unavailable⟩ (by decide)).2.1⟩

/-! ## Renewal capper (claims C3, C4, C10)

From `App.tsx` (`handleRenewLoan`, src/unnamed/part_004 lines 365-417 and
src/unnamed/part_005 lines 304-366).  The fallback for a loan without an
explicit `dueDate` is `parseISO(loan.date)` — the checkout timestamp
itself, not the derived due date.  When the conflicting-reservation list
is empty but its length still exceeds `currentOnShelf` (possible only
when `currentOnShelf < 0`), the source dereferences
`conflictingReservations[0].pickupDate` on `undefined` and throws; that
is the `fault` outcome below. -/

/-- Sorting reservations by pickup date ascending, the source's
`sort((a, b) => parseISO(a.pickupDate).getTime() - parseISO(b.pickupDate).getTime())`. -/
def sortByPickup (rs : List Reservation) : List Reservation :=
  rs.insertionSort (fun a b => a.pickupDate ≤ b.pickupDate)

instance : IsTotal Reservation (fun a b => a.pickupDate ≤ b.pickupDate) :=
  ⟨fun a b => le_total a.pickupDate b.pickupDate⟩

instance : IsTrans Reservation (fun a b => a.pickupDate ≤ b.pickupDate) :=
  ⟨fun _ _ _ hab hbc => le_trans hab hbc⟩

/-- The title's Active reservations with `pickupDate` strictly before the
standard renewed date, sorted ascending. -/
def conflictingReservations (reservations : List Reservation) (bookId : String)
    (stdDue : Int) : List Reservation :=
  sortByPickup (reservations.filter (fun r =>
    r.bookId == bookId && r.status == .active && r.pickupDate < stdDue))

/-- The loan's current due date: the explicit `dueDate` when present,
otherwise the loan's own `date` (`loan.dueDate ? parseISO(loan.dueDate) :
parseISO(loan.date)`). -/
def loanCurrentDue (loan : Transaction) : Int :=
  loan.dueDate.getD loan.date

/-- `totalCopies - (checkOuts - checkIns)` over all of the title's
transactions (unclamped, as in `handleRenewLoan`). -/
def currentOnShelfOf (book : Book) (transactions : List Transaction)
    (bookId : String) : Int :=
  book.totalCopies -
    ((checkoutCountOf transactions bookId : Int) - (checkinCountOf transactions bookId : Int))

/-- Intermediate result of the conflict-check block of `handleRenewLoan`. -/
inductive RenewStep where
  | fault
  | blockedAt (resPickupDate : Int)
  | proceed (newDue : Int) (cappedBy : Option Reservation)
  deriving Repr, DecidableEq

/-- The conflict-check block of `handleRenewLoan`. -/
def renewStep (books : List Book) (reservations : List Reservation)
    (s : Settings) (transactions : List Transaction) (loan : Transaction) :
    RenewStep :=
  let currentDue := loanCurrentDue loan
  let stdDue := currentDue + s.loanPeriodDays
  match books.find? (fun b => b.id == loan.bookId) with
  | none => .proceed stdDue none
  | some book =>
    let conflicting := conflictingReservations reservations loan.bookId stdDue
    let currentOnShelf := currentOnShelfOf book transactions loan.bookId
    if currentOnShelf < (conflicting.length : Int) then
      match conflicting.head? with
      | none => .fault
      | some earliest =>
        let capped := earliest.pickupDate - 1
        if capped ≤ currentDue then .blockedAt earliest.pickupDate
        else .proceed capped (some earliest)
    else .proceed stdDue none

/-- Final outcome of `handleRenewLoan`, paired with the updated
transaction list.  `blocked` carries the constraining reservation's pickup
date (named in the error message); `renewed` carries the applied due date
and, when capped, the constraining reservation (named in the success
message). -/
inductive RenewOutcome where
  | notFound
  | blocked (resPickupDate : Int)
  | renewed (newDue : Int) (cappedBy : Option Reservation)
  | fault
  deriving Repr, DecidableEq

/-- The `setTransactions(prev => prev.map(...))` update issued by an
accepted renewal. -/
def renewUpdate (transactions : List Transaction) (tid : String)
    (newDue : Int) (newCount : Int) : List Transaction :=
  transactions.map (fun t =>
    if t.id == tid then { t with dueDate := some newDue, renewalCount := some newCount }
    else t)

/-- The renewal handler `handleRenewLoan`. -/
def handleRenewLoan (books : List Book) (reservations : List Reservation)
    (s : Settings) (transactions : List Transaction) (tid : String) :
    RenewOutcome × List Transaction :=
  match transactions.find? (fun t => t.id == tid) with
  | none => (.notFound, transactions)
  | some loan =>
    match renewStep books reservations s transactions loan with
    | .fault => (.fault, transactions)
    | .blockedAt d => (.blocked d, transactions)
    | .proceed newDue cappedBy =>
      (.renewed newDue cappedBy,
       renewUpdate transactions tid newDue (loan.renewalCount.getD 0 + 1))

theorem conflictingReservations_sorted
    (reservations : List Reservation) (bookId : String) (stdDue : Int) :
    (conflictingReservations reservations bookId stdDue).Sorted
      (fun a b => a.pickupDate ≤ b.pickupDate) :=
  List.sorted_insertionSort _ _

/-- The head of the sorted conflicting list has the minimal pickup date. -/
theorem conflictingReservations_head_min
    (reservations : List Reservation) (bookId : String) (stdDue : Int)
    (earliest : Reservation)
    (h : (conflictingReservations reservations bookId stdDue).head? = some earliest) :
    ∀ r ∈ conflictingReservations reservations bookId stdDue,
      earliest.pickupDate ≤ r.pickupDate := by
  intro r hr
  have hs := conflictingReservations_sorted reservations bookId stdDue
  cases hc : conflictingReservations reservations bookId stdDue with
  | nil => rw [hc] at hr; cases hr
  | cons a rest =>
    rw [hc] at h hr hs
    injection h with h
    subst h
    rcases List.mem_cons.mp hr with rfl | hr
    · exact le_refl _
    · exact List.rel_of_sorted_cons hs r hr

/-- C3, confirmed.  With the loan and its title found, let the conflicting
reservations be the title's Active reservations with pickup date before
`currentDue + loanPeriodDays` (sorted ascending) and `currentOnShelf =
totalCopies - (checkOuts - checkIns)`.  If there is no conflict the full
standard extension is applied; if the conflict count exceeds
`currentOnShelf` the due date is capped to the earliest conflicting
reservation's pickup date minus one day, the renewal is rejected with no
mutation exactly when the capped date is not strictly after the current
due date, and otherwise the capped date is applied together with the
constraining reservation; the `earliest` head really has the minimal
pickup date. -/
theorem c3_renewal_cap (books : List Book) (reservations : List Reservation)
    (s : Settings) (transactions : List Transaction) (tid : String)
    (loan : Transaction) (book : Book)
    (hloan : transactions.find? (fun t => t.id == tid) = some loan)
    (hbook : books.find? (fun b => b.id == loan.bookId) = some book) :
    (((conflictingReservations reservations loan.bookId
          (loanCurrentDue loan + s.loanPeriodDays)).length : Int) ≤
        currentOnShelfOf book transactions loan.bookId →
      handleRenewLoan books reservations s transactions tid =
        (.renewed (loanCurrentDue loan + s.loanPeriodDays) none,
         renewUpdate transactions tid (loanCurrentDue loan + s.loanPeriodDays)
           (loan.renewalCount.getD 0 + 1))) ∧
    (∀ earliest,
      (conflictingReservations reservations loan.bookId
          (loanCurrentDue loan + s.loanPeriodDays)).head? = some earliest →
      currentOnShelfOf book transactions loan.bookId <
        ((conflictingReservations reservations loan.bookId
            (loanCurrentDue loan + s.loanPeriodDays)).length : Int) →
      (earliest.pickupDate - 1 ≤ loanCurrentDue loan →
        handleRenewLoan books reservations s transactions tid =
          (.blocked earliest.pickupDate, transactions)) ∧
      (loanCurrentDue loan < earliest.pickupDate - 1 →
        handleRenewLoan books reservations s transactions tid =
          (.renewed (earliest.pickupDate - 1) (some earliest),
           renewUpdate transactions tid (earliest.pickupDate - 1)
             (loan.renewalCount.getD 0 + 1))) ∧
      (∀ r ∈ conflictingReservations reservations loan.bookId
          (loanCurrentDue loan + s.loanPeriodDays),
        earliest.pickupDate ≤ r.pickupDate)) := by
  unfold handleRenewLoan renewStep
  rw [hloan]
  dsimp only
  rw [hbook]
  dsimp only
  constructor
  · intro hle
    rw [if_neg (not_lt.mpr hle)]
  · intro earliest hhead hlt
    rw [if_pos hlt, hhead]
    dsimp only
    refine ⟨?_, ?_, conflictingReservations_head_min _ _ _ _ hhead⟩
    · intro hcap
      rw [if_pos hcap]
    · intro hcap
      rw [if_neg (not_le.mpr hcap)]

/-- The spec's own renewal scenario: one copy, loan due Day 15, Active
reservation with pickup Day 20, `loanPeriodDays = 15`. -/
def c3Book : Book := ⟨"b1", "Title A", "A", 1⟩

/-- The loan of the renewal scenario. -/
def c3Loan : Transaction := ⟨"t1", "b1", "Title A", "m1", .checkOut, 0, some 15, some 0⟩

/-- The queued reservation of the renewal scenario. -/
def c3Res : Reservation := ⟨"r1", "b1", "m2", 5, 20, .active⟩

theorem c3_renewal_cap_witness :
    handleRenewLoan [c3Book] [c3Res] ⟨15, 2⟩ [c3Loan] "t1" =
      (.renewed (c3Res.pickupDate - 1) (some c3Res),
       renewUpdate [c3Loan] "t1" (c3Res.pickupDate - 1)
         (c3Loan.renewalCount.getD 0 + 1)) :=
  (((c3_renewal_cap [c3Book] [c3Res] ⟨15, 2⟩ [c3Loan] "t1" c3Loan c3Book
      (by decide) (by decide)).2 c3Res (by decide) (by decide)).2.1) (by decide)

/-- C4, corrected (amended form).  With the loan and its title found, zero
conflicting Active reservations and a non-negative `currentOnShelf`, the
renewal succeeds with new due date exactly `currentDue + loanPeriodDays` —
where the current due date is the explicit `dueDate` when present and
otherwise the loan's own checkout date `loan.date` (not the derived due
date `loan.date + loanPeriodDays` that the claim names; see
`c4_counterexample`). -/
theorem c4_renewal_full (books : List Book) (reservations : List Reservation)
    (s : Settings) (transactions : List Transaction) (tid : String)
    (loan : Transaction) (book : Book)
    (hloan : transactions.find? (fun t => t.id == tid) = some loan)
    (hbook : books.find? (fun b => b.id == loan.bookId) = some book)
    (hconf : conflictingReservations reservations loan.bookId
      (loanCurrentDue loan + s.loanPeriodDays) = [])
    (hshelf : 0 ≤ currentOnShelfOf book transactions loan.bookId) :
    handleRenewLoan books reservations s transactions tid =
      (.renewed (loanCurrentDue loan + s.loanPeriodDays) none,
       renewUpdate transactions tid (loanCurrentDue loan + s.loanPeriodDays)
         (loan.renewalCount.getD 0 + 1)) := by
  unfold handleRenewLoan renewStep
  rw [hloan]
  dsimp only
  rw [hbook]
  dsimp only
  rw [hconf]
  rw [if_neg (by simpa using hshelf)]

/-- A loan without an explicit `dueDate`, checked out at Day 0. -/
def c4Loan : Transaction := ⟨"t1", "b1", "B", "m1", .checkOut, 0, none, none⟩

/-- C4 counterexample: for a loan without an explicit `dueDate`, checked
out at Day 0 with `loanPeriodDays = 15` and zero conflicting reservations,
the code renews to Day 15 (`loan.date + loanPeriodDays`), not to the
claim's `derivedDue + loanPeriodDays = Day 30`. -/
theorem c4_counterexample :
    (handleRenewLoan [⟨"b1", "B", "A", 1⟩] [] ⟨15, 2⟩ [c4Loan] "t1").fst =
        RenewOutcome.renewed 15 none ∧
      RenewOutcome.renewed 15 none ≠
        RenewOutcome.renewed ((c4Loan.date + 15) + 15) none := by
  decide

/-- A loan with an explicit due date Day 10, on a two-copy title. -/
def c4wLoan : Transaction := ⟨"t2", "b2", "B", "m1", .checkOut, 0, some 10, some 1⟩

theorem c4_renewal_full_witness :
    handleRenewLoan [⟨"b2", "B", "A", 2⟩] [] ⟨15, 2⟩ [c4wLoan] "t2" =
      (.renewed (loanCurrentDue c4wLoan + 15) none,
       renewUpdate [c4wLoan] "t2" (loanCurrentDue c4wLoan + 15)
         (c4wLoan.renewalCount.getD 0 + 1)) :=
  c4_renewal_full [⟨"b2", "B", "A", 2⟩] [] ⟨15, 2⟩ [c4wLoan] "t2" c4wLoan
    ⟨"b2", "B", "A", 2⟩ (by decide) (by decide) (by decide) (by decide)

theorem renewUpdate_selfCount (transactions : List Transaction) (tid : String)
    (loan : Transaction)
    (hfind : transactions.find? (fun t => t.id == tid) = some loan)
    (hnd : (transactions.map (fun t => t.id)).Nodup) (newDue : Int) :
    renewUpdate transactions tid newDue (loan.renewalCount.getD 0 + 1) =
      transactions.map (fun t =>
        if t.id == tid then
          { t with dueDate := some newDue,
                   renewalCount := some (t.renewalCount.getD 0 + 1) }
        else t) := by
  unfold renewUpdate
  apply List.map_congr_left
  intro t ht
  by_cases h : t.id = tid
  · have hl : loan ∈ transactions := List.mem_of_find?_eq_some hfind
    have hlid : loan.id = tid := by simpa using List.find?_some hfind
    have ht' : t = loan :=
      List.inj_on_of_nodup_map hnd ht hl (by rw [h, hlid])
    subst ht'
    simp [h]
  · simp [h]

/-- C10, confirmed.  A renewal that is blocked by a reservation, or whose
transaction id is not found, leaves the transaction list unchanged; an
accepted renewal (on a list with distinct transaction ids) rewrites only
the targeted transaction and only its `dueDate` and `renewalCount`
fields, the new count being the old one (defaulted to 0) plus 1, every
other transaction and field being untouched — expressed by the map that
leaves non-matching entries literally identical and updates the matching
entry by a record-update on exactly those two fields. -/
theorem c10_renewal_frame (books : List Book) (reservations : List Reservation)
    (s : Settings) (transactions : List Transaction) (tid : String) :
    ((handleRenewLoan books reservations s transactions tid).fst = .notFound →
      (handleRenewLoan books reservations s transactions tid).snd = transactions) ∧
    (∀ d, (handleRenewLoan books reservations s transactions tid).fst = .blocked d →
      (handleRenewLoan books reservations s transactions tid).snd = transactions) ∧
    ((transactions.map (fun t => t.id)).Nodup →
      ∀ nd cap,
        (handleRenewLoan books reservations s transactions tid).fst = .renewed nd cap →
        (handleRenewLoan books reservations s transactions tid).snd =
          transactions.map (fun t =>
            if t.id == tid then
              { t with dueDate := some nd,
                       renewalCount := some (t.renewalCount.getD 0 + 1) }
            else t)) := by
  unfold handleRenewLoan
  cases hfind : transactions.find? (fun t => t.id == tid) with
  | none => simp
  | some loan =>
    dsimp only
    cases hstep : renewStep books reservations s transactions loan with
    | fault => simp
    | blockedAt d => simp
    | proceed newDue cappedBy =>
      dsimp only
      refine ⟨by simp, by simp, ?_⟩
      intro hnd nd cap h
      injection h with h1 h2
      subst h1
      exact renewUpdate_selfCount transactions tid loan hfind hnd _

/-- A loan used to exercise the accepted-renewal frame condition. -/
def c10Loan : Transaction := ⟨"t3", "b3", "B", "m1", .checkOut, 0, some 10, some 0⟩

theorem c10_renewal_frame_witness :
    (handleRenewLoan [] [] ⟨15, 2⟩ [c10Loan] "t3").snd =
      [c10Loan].map (fun t =>
        if t.id == "t3" then
          { t with dueDate := some 25,
                   renewalCount := some (t.renewalCount.getD 0 + 1) }
        else t) :=
  (c10_renewal_frame [] [] ⟨15, 2⟩ [c10Loan] "t3").2.2 (by decide) 25 none (by decide)

/-! ## Reservation timeline simulator, earliest pickup (claim C5)

From `ReserveBook.tsx` (`calculateEarliestAvailableDate`, lines 176-224):
active checkouts of the title are rebuilt with the per-member FIFO walk,
one copy-free date is produced per physical copy (the due date — explicit
or `checkoutDate + loanPeriodDays` — per copy on loan, `new Date(0)` per
on-shelf copy), then every existing Active reservation, in pickup-date
ascending order, grabs the first entry of the sorted date pool that is
`≤` its pickup date, replacing it by `pickupDate + loanPeriodDays` and
re-sorting; the result is the pool's head floored at tomorrow.
`startOfDay(parseISO(res.pickupDate))` is the identity in the whole-day
model, pickup dates being midnight-aligned calendar dates. -/

/-- Iteration order of `new Set(bookTransactions.map(t => memberId))`:
first-occurrence order of the member ids. -/
def memberIdsOf (txns : List Transaction) : List String :=
  txns.foldl (fun acc t => if acc.contains t.memberId then acc else acc ++ [t.memberId]) []

/-- The `activeCheckouts` rebuild of `calculateEarliestAvailableDate`:
the FIFO ledger walk applied per member over the title's transactions. -/
def activeCheckoutsFor (transactions : List Transaction) (book : Book) :
    List Transaction :=
  let bookTxns := transactions.filter (fun t => t.bookId == book.id)
  (memberIdsOf bookTxns).flatMap (fun m =>
    activeLoans (sortByDate (bookTxns.filter (fun t =>
      t.memberId == m && t.bookId == book.id))))

/-- The initial `copyFreeDates` pool: a due date per copy on loan, epoch
(`new Date(0)` = 0) per on-shelf copy.  When active checkouts exceed
`totalCopies` the `for` loop adds no epochs (`onShelfCopies ≤ 0`). -/
def copyFreeDates (s : Settings) (transactions : List Transaction) (book : Book) :
    List Int :=
  let ac := activeCheckoutsFor transactions book
  let fromLoans := ac.map (fun c => c.dueDate.getD (c.date + s.loanPeriodDays))
  let onShelfCopies : Int := book.totalCopies - (ac.length : Int)
  fromLoans ++ List.replicate onShelfCopies.toNat 0

/-- Ascending numeric sort, the source's `sort((a, b) => a - b)`. -/
def sortDates (ds : List Int) : List Int :=
  ds.insertionSort (fun a b => a ≤ b)

/-- The inner `for` loop over `tempCopyFreeDates`: the first entry `≤` the
reservation's pickup date is advanced to `pickupDate + loanPeriodDays` and
the pool is re-sorted; with no eligible entry the pool is untouched. -/
def assignReservation (s : Settings) (temp : List Int) (r : Reservation) :
    List Int :=
  match temp.findIdx? (fun d => d ≤ r.pickupDate) with
  | some i => sortDates (temp.set i (r.pickupDate + s.loanPeriodDays))
  | none => temp

/-- The earliest-pickup computation `calculateEarliestAvailableDate`. -/
def calculateEarliestAvailableDate (s : Settings) (transactions : List Transaction)
    (reservations : List Reservation) (book : Book) (now : Int) : Int :=
  let temp0 := sortDates (copyFreeDates s transactions book)
  let bookRes := sortByPickup (reservations.filter (fun r =>
    r.bookId == book.id && r.status == .active))
  let final := bookRes.foldl (assignReservation s) temp0
  let tomorrow := now + 1
  match final.head? with
  | some earliest => if tomorrow < earliest then earliest else tomorrow
  | none => tomorrow

/-- The minimum of a list of dates (`none` on the empty list). -/
def minOf : List Int → Option Int
  | [] => none
  | d :: ds => some (ds.foldl min d)

/-- One step in the words of the claim: the reservation is assigned to the
earliest copy-free date that is `≤` its pickup date, that copy's free date
advances to `pickupDate + loanPeriodDays` and the pool is re-sorted;
copies are left untouched when no date is eligible. -/
def specAssign (s : Settings) (temp : List Int) (r : Reservation) : List Int :=
  match minOf (temp.filter (fun d => d ≤ r.pickupDate)) with
  | some m => sortDates (temp.erase m ++ [r.pickupDate + s.loanPeriodDays])
  | none => temp

theorem foldl_min_const (l : List Int) (a : Int) (h : ∀ x ∈ l, a ≤ x) :
    l.foldl min a = a := by
  induction l with
  | nil => rfl
  | cons x xs ih =>
    have hx : min a x = a := min_eq_left (h x (List.mem_cons_self x xs))
    simp only [List.foldl_cons, hx]
    exact ih (fun y hy => h y (List.mem_cons_of_mem x hy))

theorem minOf_eq_head_of_sorted (l : List Int)
    (h : l.Sorted (fun a b => a ≤ b)) : minOf l = l.head? := by
  cases l with
  | nil => rfl
  | cons d ds =>
    simp only [minOf, List.head?]
    exact congrArg some (foldl_min_const ds d (List.rel_of_sorted_cons h))

theorem sortDates_sorted (ds : List Int) :
    (sortDates ds).Sorted (fun a b => a ≤ b) :=
  List.sorted_insertionSort _ ds

theorem sortDates_perm (ds : List Int) : List.Perm (sortDates ds) ds :=
  List.perm_insertionSort _ ds

theorem assignReservation_sorted (s : Settings) (temp : List Int)
    (r : Reservation) (h : temp.Sorted (fun a b => a ≤ b)) :
    (assignReservation s temp r).Sorted (fun a b => a ≤ b) := by
  unfold assignReservation
  cases hidx : temp.findIdx? (fun d => d ≤ r.pickupDate) with
  | none => exact h
  | some i => exact sortDates_sorted _

theorem assignReservation_length (s : Settings) (temp : List Int)
    (r : Reservation) :
    (assignReservation s temp r).length = temp.length := by
  unfold assignReservation
  cases hidx : temp.findIdx? (fun d => d ≤ r.pickupDate) with
  | none => rfl
  | some i =>
    calc (sortDates (temp.set i (r.pickupDate + s.loanPeriodDays))).length
        = (temp.set i (r.pickupDate + s.loanPeriodDays)).length :=
          (sortDates_perm _).length_eq
      _ = temp.length := List.length_set ..

/-- On a sorted pool, grabbing the first entry `≤ pickup` is the same as
grabbing the minimal eligible entry: the claim's step equals the code's. -/
theorem assignReservation_eq_spec (s : Settings) (temp : List Int)
    (r : Reservation) (h : temp.Sorted (fun a b => a ≤ b)) :
    assignReservation s temp r = specAssign s temp r := by
  cases temp with
  | nil => rfl
  | cons d ds =>
    by_cases hd : d ≤ r.pickupDate
    · have hidx : (d :: ds).findIdx? (fun x => x ≤ r.pickupDate) = some 0 := by
        simp [List.findIdx?_cons, hd]
      have hall : ∀ x ∈ ds.filter (fun x => x ≤ r.pickupDate), d ≤ x :=
        fun x hx => List.rel_of_sorted_cons h x (List.mem_of_mem_filter hx)
      have hmin : minOf ((d :: ds).filter (fun x => x ≤ r.pickupDate)) = some d := by
        rw [List.filter_cons_of_pos (by simpa using hd)]
        simp only [minOf]
        exact congrArg some (foldl_min_const _ d hall)
      unfold assignReservation specAssign
      rw [hidx, hmin]
      dsimp only
      rw [List.erase_cons_head, List.set_cons_zero]
      refine List.eq_of_perm_of_sorted ?_ (sortDates_sorted _) (sortDates_sorted _)
      exact (sortDates_perm _).trans
        (((List.perm_append_singleton _ _).symm).trans (sortDates_perm _).symm)
    · have key : ∀ a ∈ d :: ds, decide (a ≤ r.pickupDate) = false := by
        intro a ha
        rcases List.mem_cons.mp ha with rfl | ha
        · exact decide_eq_false hd
        · exact decide_eq_false
            (fun hc => hd (le_trans (List.rel_of_sorted_cons h a ha) hc))
      have hnone : (d :: ds).findIdx? (fun x => x ≤ r.pickupDate) = none := by
        rw [List.findIdx?_eq_none_iff]
        exact key
      have hfil : (d :: ds).filter (fun x => x ≤ r.pickupDate) = [] := by
        rw [List.filter_eq_nil_iff]
        intro a ha
        simpa using key a ha
      unfold assignReservation specAssign
      rw [hnone, hfil]
      rfl

theorem foldAssign_sorted (s : Settings) (rs : List Reservation) :
    ∀ temp : List Int, temp.Sorted (fun a b => a ≤ b) →
      (rs.foldl (assignReservation s) temp).Sorted (fun a b => a ≤ b) := by
  induction rs with
  | nil => exact fun temp h => h
  | cons r rest ih =>
    intro temp h
    exact ih _ (assignReservation_sorted s temp r h)

theorem foldAssign_eq_spec (s : Settings) (rs : List Reservation) :
    ∀ temp : List Int, temp.Sorted (fun a b => a ≤ b) →
      rs.foldl (assignReservation s) temp = rs.foldl (specAssign s) temp := by
  induction rs with
  | nil => exact fun temp _ => rfl
  | cons r rest ih =>
    intro temp h
    simp only [List.foldl_cons]
    rw [← assignReservation_eq_spec s temp r h]
    exact ih _ (assignReservation_sorted s temp r h)

theorem foldAssign_length (s : Settings) (rs : List Reservation) :
    ∀ temp : List Int,
      (rs.foldl (assignReservation s) temp).length = temp.length := by
  induction rs with
  | nil => exact fun temp => rfl
  | cons r rest ih =>
    intro temp
    simp only [List.foldl_cons]
    rw [ih, assignReservation_length]

theorem copyFreeDates_ne_nil (s : Settings) (transactions : List Transaction)
    (book : Book) (h : 1 ≤ book.totalCopies) :
    copyFreeDates s transactions book ≠ [] := by
  unfold copyFreeDates
  dsimp only
  intro hc
  have hlen := congrArg List.length hc
  simp only [List.length_append, List.length_map, List.length_replicate,
    List.length_nil] at hlen
  omega

/-- The spec-worded simulation pool after all existing reservations are
assigned, starting from the per-copy free dates. -/
def specFinalPool (s : Settings) (transactions : List Transaction)
    (reservations : List Reservation) (book : Book) : List Int :=
  (sortByPickup (reservations.filter (fun r =>
      r.bookId == book.id && r.status == .active))).foldl (specAssign s)
    (sortDates (copyFreeDates s transactions book))

/-- The loaned copy of the spec scenario: one copy out, due Day 10. -/
def c5Txns : List Transaction :=
  [⟨"t1", "b1", "B", "m1", .checkOut, 0, some 10, some 0⟩]

/-- The existing Active reservation of the spec scenario, pickup Day 5. -/
def c5Res1 : Reservation := ⟨"r1", "b1", "m2", 0, 5, .active⟩

/-- The reservation list of the spec scenario. -/
def c5Reservations : List Reservation := [c5Res1]

/-- The two-copy title of the spec scenario. -/
def c5Book : Book := ⟨"b1", "B", "A", 2⟩

/-- C5, confirmed.  First conjunct: for every title with at least one
copy, the code's earliest-pickup computation returns exactly the minimum
of the spec-worded simulation pool (each existing Active reservation, in
pickup ascending order, advances the earliest copy-free date that is `≤`
its pickup date), floored at tomorrow (`max`).  Second conjunct: the
claim's concrete scenario — two copies, one on loan due Day 10, one on
shelf, one existing Active reservation with pickup Day 5 — yields
`max(Day 10, tomorrow)` whenever `loanPeriodDays ≥ 5` (so that
`5 + loanPeriodDays ≥ 10`; the repository default is 15, and the claim's
stated outcome needs this implicit premise of the spec's walkthrough). -/
theorem c5_earliest_pickup :
    (∀ (s : Settings) (transactions : List Transaction)
        (reservations : List Reservation) (book : Book) (now : Int),
      1 ≤ book.totalCopies →
      ∃ e, minOf (specFinalPool s transactions reservations book) = some e ∧
        calculateEarliestAvailableDate s transactions reservations book now =
          max e (now + 1)) ∧
    (∀ now lp : Int, 5 ≤ lp →
      calculateEarliestAvailableDate ⟨lp, 2⟩ c5Txns c5Reservations c5Book now =
        max 10 (now + 1)) := by
  constructor
  · intro s transactions reservations book now hcopies
    set temp0 := sortDates (copyFreeDates s transactions book) with htemp0
    set rs := sortByPickup (reservations.filter (fun r =>
      r.bookId == book.id && r.status == .active)) with hrs
    have hsorted0 : temp0.Sorted (fun a b => a ≤ b) := sortDates_sorted _
    have heq : rs.foldl (assignReservation s) temp0 = rs.foldl (specAssign s) temp0 :=
      foldAssign_eq_spec _ _ _ hsorted0
    have hsortedF : (rs.foldl (assignReservation s) temp0).Sorted (fun a b => a ≤ b) :=
      foldAssign_sorted _ _ _ hsorted0
    have hne : rs.foldl (assignReservation s) temp0 ≠ [] := by
      intro hcon
      have h1 : (rs.foldl (assignReservation s) temp0).length = temp0.length :=
        foldAssign_length _ _ _
      have h2 : temp0.length = (copyFreeDates s transactions book).length := by
        rw [htemp0]
        exact (sortDates_perm _).length_eq
      have h3 : copyFreeDates s transactions book ≠ [] :=
        copyFreeDates_ne_nil _ _ _ hcopies
      rw [hcon, List.length_nil] at h1
      exact h3 (List.length_eq_zero.mp (by omega))
    obtain ⟨e, he⟩ : ∃ e, (rs.foldl (assignReservation s) temp0).head? = some e := by
      cases hF : rs.foldl (assignReservation s) temp0 with
      | nil => exact absurd hF hne
      | cons a t => exact ⟨a, rfl⟩
    refine ⟨e, ?_, ?_⟩
    · rw [specFinalPool, ← hrs, ← htemp0, ← heq,
        minOf_eq_head_of_sorted _ hsortedF, he]
    · unfold calculateEarliestAvailableDate
      rw [← htemp0, ← hrs]
      dsimp only
      rw [he]
      dsimp only
      omega
  · intro now lp hlp
    have h1 : sortDates (copyFreeDates ⟨lp, 2⟩ c5Txns c5Book) = [0, 10] := rfl
    have h2 : sortByPickup (c5Reservations.filter (fun r =>
        r.bookId == c5Book.id && r.status == .active)) = c5Reservations := rfl
    have h4 : c5Reservations.foldl (assignReservation ⟨lp, 2⟩) ([0, 10] : List Int) =
        sortDates [5 + lp, 10] := by
      simp only [c5Reservations, List.foldl_cons, List.foldl_nil]
      unfold assignReservation
      rw [show ([0, 10] : List Int).findIdx? (fun d => d ≤ c5Res1.pickupDate) =
        some 0 from by decide]
      rfl
    have h5 : sortDates [5 + lp, 10] =
        if 5 + lp ≤ 10 then [5 + lp, 10] else [10, 5 + lp] := by
      by_cases hc : 5 + lp ≤ 10
      · simp [sortDates, List.insertionSort, List.orderedInsert, hc]
      · simp [sortDates, List.insertionSort, List.orderedInsert, hc]
    unfold calculateEarliestAvailableDate
    dsimp only
    rw [h2, h1, h4, h5]
    by_cases hc : 5 + lp ≤ 10
    · rw [if_pos hc]
      dsimp only [List.head?]
      split_ifs <;> omega
    · rw [if_neg hc]
      dsimp only [List.head?]
      split_ifs <;> omega

theorem c5_earliest_pickup_witness :
    (1 : Int) ≤ c5Book.totalCopies ∧
      calculateEarliestAvailableDate ⟨15, 2⟩ c5Txns c5Reservations c5Book 0 =
        max 10 (0 + 1) :=
  ⟨by decide, c5_earliest_pickup.2 0 15 (by norm_num)⟩

/-! ## Reservation timeline simulator, latest pickup when editing (claim C6)

From `ReserveBook.tsx` (`calculateMaxPickupDate`, lines 226-250): the
title's Active reservations sorted by pickup date; the reservation at the
edited one's index plus `totalCopies` bounds the edit, its pickup date
minus `loanPeriodDays` being the maximum; otherwise the horizon is 90
days from today.  JavaScript `findIndex` yields `-1` when the edited
reservation is missing from the list, hence the `Int`-valued index. -/

/-- A title's Active reservations sorted by pickup date ascending. -/
def activeSortedFor (reservations : List Reservation) (bookId : String) :
    List Reservation :=
  sortByPickup (reservations.filter (fun x =>
    x.bookId == bookId && x.status == .active))

/-- Display name for the blocking reservation's member: the member's name
when found, else the raw member id (`member ? member.name :
blockingRes.memberId`). -/
def memberNameOr (members : List Member) (memberId : String) : String :=
  match members.find? (fun m => m.id == memberId) with
  | some m => m.name
  | none => memberId

/-- The result record of `calculateMaxPickupDate`. -/
structure MaxPickupInfo where
  date : Int
  isReservationLimit : Bool
  limitedByMember : Option String
  deriving Repr, DecidableEq

/-- The latest-pickup computation `calculateMaxPickupDate`. -/
def calculateMaxPickupDate (books : List Book) (reservations : List Reservation)
    (members : List Member) (s : Settings) (now : Int) (r : Reservation) :
    MaxPickupInfo :=
  match books.find? (fun b => b.id == r.bookId) with
  | none => ⟨now + 90, false, none⟩
  | some book =>
    let sorted := activeSortedFor reservations r.bookId
    let currentIndex : Int :=
      match sorted.findIdx? (fun x => x.id == r.id) with
      | some i => (i : Int)
      | none => -1
    let blockingIndex : Int := currentIndex + book.totalCopies
    if blockingIndex < (sorted.length : Int) ∧ 0 ≤ blockingIndex then
      match sorted[blockingIndex.toNat]? with
      | some blockingRes =>
        ⟨blockingRes.pickupDate - s.loanPeriodDays, true,
         some (memberNameOr members blockingRes.memberId)⟩
      | none => ⟨now + 90, false, none⟩
    else ⟨now + 90, false, none⟩

/-- C6, confirmed.  For an edited reservation whose title is found (with
at least one copy) and which occurs in the title's sorted Active list at
position `i`: when a reservation exists at position `i + totalCopies` the
maximum allowed pickup date is that blocking reservation's pickup date
minus `loanPeriodDays` (flagged as a reservation limit and naming the
blocking member); otherwise the maximum is 90 days from today. -/
theorem c6_max_pickup (books : List Book) (reservations : List Reservation)
    (members : List Member) (s : Settings) (now : Int) (r : Reservation)
    (book : Book) (i : Nat)
    (hbook : books.find? (fun b => b.id == r.bookId) = some book)
    (hcopies : 1 ≤ book.totalCopies)
    (hidx : (activeSortedFor reservations r.bookId).findIdx?
      (fun x => x.id == r.id) = some i) :
    (∀ blockingRes,
      (activeSortedFor reservations r.bookId)[((i : Int) + book.totalCopies).toNat]? =
          some blockingRes →
      calculateMaxPickupDate books reservations members s now r =
        ⟨blockingRes.pickupDate - s.loanPeriodDays, true,
         some (memberNameOr members blockingRes.memberId)⟩) ∧
    (((activeSortedFor reservations r.bookId).length : Int) ≤
        (i : Int) + book.totalCopies →
      calculateMaxPickupDate books reservations members s now r =
        ⟨now + 90, false, none⟩) := by
  unfold calculateMaxPickupDate
  rw [hbook]
  dsimp only
  rw [hidx]
  dsimp only
  constructor
  · intro blockingRes hget
    have hlt : ((i : Int) + book.totalCopies).toNat <
        (activeSortedFor reservations r.bookId).length :=
      (List.getElem?_eq_some.mp hget).1
    rw [if_pos (by constructor <;> omega)]
    rw [hget]
  · intro hge
    rw [if_neg (by omega)]

/-- The edited reservation of the max-pickup witness scenario. -/
def c6Res1 : Reservation := ⟨"r1", "b1", "m1", 0, 10, .active⟩

/-- The blocking reservation of the max-pickup witness scenario. -/
def c6Res2 : Reservation := ⟨"r2", "b1", "m2", 0, 30, .active⟩

theorem c6_max_pickup_witness :
    calculateMaxPickupDate [⟨"b1", "B", "A", 1⟩] [c6Res1, c6Res2]
        [⟨"m2", "M Two"⟩] ⟨15, 2⟩ 0 c6Res1 =
      ⟨c6Res2.pickupDate - 15, true,
       some (memberNameOr [⟨"m2", "M Two"⟩] c6Res2.memberId)⟩ :=
  (c6_max_pickup [⟨"b1", "B", "A", 1⟩] [c6Res1, c6Res2] [⟨"m2", "M Two"⟩]
    ⟨15, 2⟩ 0 c6Res1 ⟨"b1", "B", "A", 1⟩ 0 (by decide) (by decide)
    (by decide)).1 c6Res2 (by decide)

/-! ## Conflict validator (claim C7)

From `ReserveBook.tsx`: `handleReserveSubmit` (lines 300-349) rejects a
new reservation when inputs are missing, when the trimmed member id is
unknown, when the member already holds an Active reservation for the same
title (Rule 1), or when any of the member's Active reservations has a
pickup date less than 15 whole days from the requested date (Rule 2);
only then is the `onReserveBook` mutation issued.
`handleConfirmDateChange` (lines 260-282) rejects a date edit when some
other Active reservation of the same member is less than 15 days from the
new date; only then is `onUpdateReservationDate` issued. -/

/-- Model of `String.prototype.trim`: strip leading and trailing
whitespace (structurally recursive so that concrete instances compute). -/
def jsTrim (s : String) : String :=
  ⟨((s.data.dropWhile Char.isWhitespace).reverse.dropWhile Char.isWhitespace).reverse⟩

/-- Outcome of `handleReserveSubmit`: the rejection notifications, or the
`onReserveBook` mutation payload.  Rejections issue no mutation. -/
inductive ReserveOutcome where
  | missingInput
  | memberMissing (memberId : String)
  | duplicateActive (existing : Reservation)
  | gapConflict (conflicting : Reservation)
  | accepted (bookId : String) (memberId : String) (pickupDate : Int)
  deriving Repr, DecidableEq

/-- The new-reservation submission `handleReserveSubmit`. -/
def handleReserveSubmit (reservations : List Reservation) (members : List Member)
    (bookToReserve : Option Book) (memberId : String)
    (pickupDate : Option Int) : ReserveOutcome :=
  match bookToReserve, pickupDate with
  | some book, some requestedDate =>
    if memberId == "" then .missingInput
    else
      let memberIdClean := jsTrim memberId
      match members.find? (fun m => m.id == memberIdClean) with
      | none => .memberMissing memberIdClean
      | some _ =>
        match reservations.find? (fun r =>
            r.memberId == memberIdClean && r.bookId == book.id &&
            r.status == .active) with
        | some dup => .duplicateActive dup
        | none =>
          match reservations.find? (fun r =>
              r.memberId == memberIdClean && r.status == .active &&
              (requestedDate - r.pickupDate).natAbs < 15) with
          | some conflicting => .gapConflict conflicting
          | none => .accepted book.id memberIdClean requestedDate
  | _, _ => .missingInput

/-- Outcome of `handleConfirmDateChange`: silently do nothing when the
edit state is incomplete, reject on the 15-day rule, else issue the
`onUpdateReservationDate` mutation. -/
inductive EditOutcome where
  | noop
  | gapConflict (conflicting : Reservation)
  | updated (reservationId : String) (newPickupDate : Int)
  deriving Repr, DecidableEq

/-- The date-edit confirmation `handleConfirmDateChange`. -/
def handleConfirmDateChange (reservations : List Reservation)
    (resToEdit : Option Reservation) (newEditDate : Option Int) : EditOutcome :=
  match resToEdit, newEditDate with
  | some r, some newDate =>
    match reservations.find? (fun x =>
        !(x.id == r.id) && x.memberId == r.memberId && x.status == .active &&
        (newDate - x.pickupDate).natAbs < 15) with
    | some conflicting => .gapConflict conflicting
    | none => .updated r.id newDate
  | _, _ => .noop

/-- C7 counterexample: a submission naming a member id that is in no
member list is rejected (member-not-found), although with an empty
reservation list neither condition (a) nor condition (b) of the claim can
hold — so "rejected iff (a) or (b)" fails as stated, the claim predicting
acceptance here. -/
theorem c7_counterexample :
    handleReserveSubmit [] [] (some ⟨"b1", "B", "A", 1⟩) "m9" (some 5) =
        .memberMissing "m9" ∧
      handleReserveSubmit [] [] (some ⟨"b1", "B", "A", 1⟩) "m9" (some 5) ≠
        .accepted "b1" "m9" 5 := by
  decide

/-- C7, corrected (amended form).  For a submission with both inputs
present, a non-empty member id field and a trimmed member id that exists:
the new reservation is accepted (the mutation payload is produced) iff the
member holds no Active reservation for the same title and no Active
reservation within strictly fewer than 15 whole days of the requested
date — so dates exactly 15 days apart pass and 14 days apart are
rejected; a date edit is accepted iff no *other* Active reservation of
the member is within strictly fewer than 15 days of the new date.
Submissions with an unknown member id are additionally rejected. -/
theorem c7_gap_rule (reservations : List Reservation) (members : List Member)
    (book : Book) (memberId : String) (requestedDate : Int) (m : Member)
    (hnz : (memberId == "") = false)
    (hm : members.find? (fun x => x.id == jsTrim memberId) = some m) :
    (handleReserveSubmit reservations members (some book) memberId
        (some requestedDate) =
        .accepted book.id (jsTrim memberId) requestedDate ↔
      (∀ r ∈ reservations,
        ¬(r.memberId = jsTrim memberId ∧ r.bookId = book.id ∧
          r.status = .active)) ∧
      (∀ r ∈ reservations,
        ¬(r.memberId = jsTrim memberId ∧ r.status = .active ∧
          (requestedDate - r.pickupDate).natAbs < 15))) ∧
    (∀ (r : Reservation) (newDate : Int),
      handleConfirmDateChange reservations (some r) (some newDate) =
          .updated r.id newDate ↔
        ∀ x ∈ reservations,
          ¬(x.id ≠ r.id ∧ x.memberId = r.memberId ∧ x.status = .active ∧
            (newDate - x.pickupDate).natAbs < 15)) := by
  constructor
  · unfold handleReserveSubmit
    rw [hnz]
    dsimp only
    rw [hm]
    dsimp only
    cases hf1 : reservations.find? (fun r =>
        r.memberId == jsTrim memberId && r.bookId == book.id &&
        r.status == .active) with
    | some dup =>
      dsimp only
      constructor
      · intro h
        exact absurd h (by simp)
      · rintro ⟨h1, _⟩
        exfalso
        have hdup := List.find?_some hf1
        have hmem := List.mem_of_find?_eq_some hf1
        simp only [Bool.and_eq_true, beq_iff_eq] at hdup
        exact h1 dup hmem ⟨hdup.1.1, hdup.1.2, hdup.2⟩
    | none =>
      cases hf2 : reservations.find? (fun r =>
          r.memberId == jsTrim memberId && r.status == .active &&
          (requestedDate - r.pickupDate).natAbs < 15) with
      | some conflicting =>
        dsimp only
        constructor
        · intro h
          exact absurd h (by simp)
        · rintro ⟨_, h2⟩
          exfalso
          have hc := List.find?_some hf2
          have hmem := List.mem_of_find?_eq_some hf2
          simp only [Bool.and_eq_true, beq_iff_eq, decide_eq_true_eq] at hc
          exact h2 conflicting hmem ⟨hc.1.1, hc.1.2, hc.2⟩
      | none =>
        dsimp only
        constructor
        · intro _
          constructor
          · rintro r hr ⟨h1, h2, h3⟩
            have hnot := List.find?_eq_none.mp hf1 r hr
            apply hnot
            simp [h1, h2, h3]
          · rintro r hr ⟨h1, h2, h3⟩
            have hnot := List.find?_eq_none.mp hf2 r hr
            apply hnot
            simp [h1, h2, h3]
        · intro _
          rfl
  · intro r newDate
    unfold handleConfirmDateChange
    dsimp only
    cases hf : reservations.find? (fun x =>
        !(x.id == r.id) && x.memberId == r.memberId && x.status == .active &&
        (newDate - x.pickupDate).natAbs < 15) with
    | some conflicting =>
      dsimp only
      constructor
      · intro h
        exact absurd h (by simp)
      · intro h2
        exfalso
        have hc := List.find?_some hf
        have hmem := List.mem_of_find?_eq_some hf
        simp only [Bool.and_eq_true, beq_iff_eq, decide_eq_true_eq,
          Bool.not_eq_true', beq_eq_false_iff_ne] at hc
        exact h2 conflicting hmem ⟨hc.1.1.1, hc.1.1.2, hc.1.2, hc.2⟩
    | none =>
      dsimp only
      constructor
      · intro _
        rintro x hx ⟨h1, h2, h3, h4⟩
        have hnot := List.find?_eq_none.mp hf x hx
        apply hnot
        simp [h1, h2, h3, h4]
      · intro _
        rfl

/-- The member of the 15-day boundary scenario. -/
def c7Member : Member := ⟨"m1", "M One"⟩

/-- The member's existing Active reservation, pickup Day 0, another
title. -/
def c7Existing : Reservation := ⟨"rx", "b2", "m1", 0, 0, .active⟩

theorem c7_gap_rule_witness :
    handleReserveSubmit [c7Existing] [c7Member] (some ⟨"b1", "B", "A", 1⟩)
        "m1" (some 15) =
      .accepted "b1" (jsTrim "m1") 15 :=
  ((c7_gap_rule [c7Existing] [c7Member] ⟨"b1", "B", "A", 1⟩ "m1" 15 c7Member
    (by decide) (by decide)).1).mpr (by decide)

/-! ## Offline write queue (claims C8, C9)

From `OfflineManager.js` (src/lib/OfflineManager.js lines 4-5 and 42-82;
src/unnamed/part_002 lines 3-4 and 40-84).  `getQueue` is
`JSON.parse(localStorage.getItem('offlineQueue')) || []`; the offline
branch of `handleLibraryAction` pushes onto the queue; `syncOfflineData`
replays the queue in order, keeps failures, persists exactly the failed
items or clears the key.

The persisted `offlineQueue` slot is modelled by `Stored`: the key may be
absent (`getItem` gives `null`; `JSON.parse(null)` evaluates to `null`
and `null || []` to `[]`); it may hold well-formed JSON, which for this
code is always an array of queue items (the code only ever stringifies
arrays); or it may hold corrupt, un-parseable text, on which `JSON.parse`
throws a `SyntaxError`.  A thrown exception is `Except.error ()`; neither
`getQueue` call site has a handler. -/

/-- One queued offline mutation `{table, action, data, time}`; the
payload is kept opaque apart from the id used by update/delete replay. -/
structure QItem where
  table : String
  action : String
  dataId : String
  time : Int
  deriving Repr, DecidableEq

/-- The persisted `offlineQueue` slot. -/
inductive Stored where
  | absent
  | queue (items : List QItem)
  | corrupt
  deriving Repr, DecidableEq

/-- `getQueue` — parse the persisted text, default with `|| []`.  Corrupt
text makes `JSON.parse` throw, and nothing catches it. -/
def getQueue : Stored → Except Unit (List QItem)
  | .absent => .ok []
  | .queue items => .ok items
  | .corrupt => .error ()

/-- The offline branch of `handleLibraryAction`: read the queue, push the
item, persist; the `Bool` stands for the dispatched toast event and
`onSuccess` call. -/
def handleLibraryActionOffline (stored : Stored) (item : QItem) :
    Except Unit (Stored × Bool) := do
  let queue ← getQueue stored
  .ok (.queue (queue ++ [item]), true)

/-- The replay loop of `syncOfflineData`: first component the items in
attempt order, second the `failedItems` accumulator.  `remoteOk` tells
whether an item's remote operation succeeds; a failing item is pushed to
`failedItems` instead of aborting the loop. -/
def syncPass (remoteOk : QItem → Bool) (queue : List QItem) :
    List QItem × List QItem :=
  queue.foldl (fun acc item =>
    (acc.1 ++ [item], if remoteOk item then acc.2 else acc.2 ++ [item]))
    ([], [])

/-- `syncOfflineData`: read the queue (a parse fault propagates), report
`true` at once on an empty queue, otherwise replay every item in order,
then persist exactly the failed items and report `false`, or remove the
key and report `true`. -/
def syncOfflineData (remoteOk : QItem → Bool) (stored : Stored) :
    Except Unit (Bool × Stored) := do
  let queue ← getQueue stored
  if queue.length = 0 then
    .ok (true, stored)
  else
    let failed := (syncPass remoteOk queue).2
    if failed.length > 0 then
      .ok (false, .queue failed)
    else
      .ok (true, .absent)

theorem syncPass_foldl (remoteOk : QItem → Bool) :
    ∀ (queue att failed : List QItem),
      queue.foldl (fun acc item =>
        (acc.1 ++ [item], if remoteOk item then acc.2 else acc.2 ++ [item]))
        (att, failed) =
      (att ++ queue, failed ++ queue.filter (fun i => !remoteOk i)) := by
  intro queue
  induction queue with
  | nil =>
    intro att failed
    simp
  | cons q rest ih =>
    intro att failed
    simp only [List.foldl_cons]
    by_cases hq : remoteOk q
    · rw [if_pos hq, ih]
      simp [List.filter_cons, hq]
    · rw [if_neg hq, ih]
      simp [List.filter_cons, hq]

theorem syncPass_spec (remoteOk : QItem → Bool) (queue : List QItem) :
    syncPass remoteOk queue = (queue, queue.filter (fun i => !remoteOk i)) := by
  unfold syncPass
  rw [syncPass_foldl]
  simp

/-- C8, confirmed.  A sync pass over a persisted queue attempts the items
exactly in enqueue order; afterwards the persisted queue reads back as
exactly the failed subset, in original order; the pass reports success
iff that subset is empty (failure iff it is non-empty); and an item whose
remote operation succeeded is not in the persisted remainder, hence is
never re-replayed by a subsequent sync pass. -/
theorem c8_sync_pass (remoteOk : QItem → Bool) (queue : List QItem) :
    (syncPass remoteOk queue).1 = queue ∧
    (∃ success newStored,
      syncOfflineData remoteOk (.queue queue) = .ok (success, newStored) ∧
      getQueue newStored = .ok (queue.filter (fun i => !remoteOk i)) ∧
      (success = true ↔ queue.filter (fun i => !remoteOk i) = [])) ∧
    (∀ i ∈ queue, remoteOk i = true →
      i ∉ queue.filter (fun x => !remoteOk x)) := by
  refine ⟨by rw [syncPass_spec], ?_, ?_⟩
  · unfold syncOfflineData
    by_cases hq : queue.length = 0
    · have hnil : queue = [] := List.length_eq_zero.mp hq
      subst hnil
      exact ⟨true, .queue [], rfl, rfl, by simp⟩
    · by_cases hf : (queue.filter (fun i => !remoteOk i)).length > 0
      · refine ⟨false, .queue (queue.filter (fun i => !remoteOk i)), ?_, rfl, ?_⟩
        · show (if queue.length = 0 then Except.ok (true, Stored.queue queue)
            else if (syncPass remoteOk queue).2.length > 0 then
              Except.ok (false, Stored.queue (syncPass remoteOk queue).2)
            else Except.ok (true, Stored.absent)) =
            Except.ok (false, Stored.queue (queue.filter (fun i => !remoteOk i)))
          rw [if_neg hq, syncPass_spec]
          dsimp only
          rw [if_pos hf]
        · constructor
          · intro h
            cases h
          · intro h
            rw [h] at hf
            simp at hf
      · have hemp : queue.filter (fun i => !remoteOk i) = [] :=
          List.length_eq_zero.mp (by omega)
        refine ⟨true, .absent, ?_, by rw [hemp]; rfl, by simp [hemp]⟩
        show (if queue.length = 0 then Except.ok (true, Stored.queue queue)
          else if (syncPass remoteOk queue).2.length > 0 then
            Except.ok (false, Stored.queue (syncPass remoteOk queue).2)
          else Except.ok (true, Stored.absent)) =
          Except.ok (true, Stored.absent)
        rw [if_neg hq, syncPass_spec]
        dsimp only
        rw [hemp]
        rfl
  · intro i hi hok hmem
    have hbad := (List.mem_filter.mp hmem).2
    rw [hok] at hbad
    simp at hbad

/-- A failing-oracle model for the three-item witness scenario: exactly
the item with payload id 2 fails to replay. -/
def c8Oracle : QItem → Bool := fun i => !(i.dataId == "2")

/-- The three enqueued items of the witness scenario. -/
def c8Queue : List QItem :=
  [⟨"transactions", "INSERT", "1", 0⟩,
   ⟨"transactions", "INSERT", "2", 1⟩,
   ⟨"transactions", "INSERT", "3", 2⟩]

theorem c8_sync_pass_witness :
    (⟨"transactions", "INSERT", "1", 0⟩ : QItem) ∉
      c8Queue.filter (fun x => !c8Oracle x) :=
  (c8_sync_pass c8Oracle c8Queue).2.2 ⟨"transactions", "INSERT", "1", 0⟩
    (by decide) (by decide)

/-- C9 counterexample: corrupt persisted queue content is not read as an
empty queue — `JSON.parse` throws, and the fault propagates out of both
the enqueue path and the sync pass, neither of which has a handler. -/
theorem c9_counterexample :
    getQueue .corrupt ≠ .ok ([] : List QItem) ∧
      handleLibraryActionOffline .corrupt ⟨"books", "INSERT", "1", 0⟩ =
        .error () ∧
      syncOfflineData (fun _ => true) .corrupt = .error () := by
  refine ⟨?_, rfl, rfl⟩
  intro h
  cases h

/-- C9, corrected (amended form).  A missing `offlineQueue` key is read
as the empty queue by the enqueue path and the sync pass, non-fatally;
but corrupt (un-parseable) persisted content makes every read of the
queue throw, and the fault propagates to the caller of both paths. -/
theorem c9_corrupt_queue :
    (getQueue .absent = .ok [] ∧
      (∀ item, handleLibraryActionOffline .absent item =
        .ok (.queue [item], true)) ∧
      (∀ remoteOk, syncOfflineData remoteOk .absent = .ok (true, .absent))) ∧
    (getQueue .corrupt = .error () ∧
      (∀ item, handleLibraryActionOffline .corrupt item = .error ()) ∧
      (∀ remoteOk, syncOfflineData remoteOk .corrupt = .error ())) :=
  ⟨⟨rfl, fun _ => rfl, fun _ => rfl⟩, ⟨rfl, fun _ => rfl, fun _ => rfl⟩⟩

end Library
